import Mathlib

/-!
# gonessus: request construction and body encoding

A shallow embedding of `src/request.go` (the request builder) and of
`Client.PerformRequest` in `src/client.go` (the orchestrator), followed by the
properties of the specification that are settled against it.

Modelling conventions
* Go `string` values are Lean `String`s; the bytes of a string are its UTF-8
  encoding (`utf8`).
* `http.Header` is a Go map from raw key to a slice of values.  It is an
  association list with at most one entry per stored key; `Header.index` is the
  raw map lookup `h[k]`.  The list order stands for the (unspecified) order in
  which `range` visits the map.
* Behaviour of the Go standard library and of the transport that the code
  calls but does not define (`http.NewRequest`, `json.Marshal`, the gzip
  writer, `url.Values.Encode`, `http.Client.Do`) is a field of `Platform` or
  `Client`, so every theorem holds for each possible behaviour of them.
* Side effects of `PerformRequest` that matter to the specification
  (handing a request to the transport, closing a response stream) are
  recorded in an event trace.  Log lines written to standard output are left
  out.
-/

set_option autoImplicit false

namespace Gonessus

/-! ## Bytes, errors, readers -/

/-- A byte sequence (`[]byte`). -/
abbrev Bytes := List UInt8

/-- A Go `error` value. -/
structure GoError where
  msg : String
deriving DecidableEq, Repr

/-- The bytes of a Go string: `[]byte(s)`. -/
def utf8 (s : String) : Bytes := s.toUTF8.data.toList

/-- The state of a `strings.Reader` or a `bytes.Reader`: the data it reads
from and the current read index. -/
structure Reader where
  s : Bytes
  i : Nat
deriving DecidableEq, Repr

/-- The functions `strings.NewReader` and `bytes.NewReader`: read index 0. -/
def NewReader (b : Bytes) : Reader := { s := b, i := 0 }

/-- The method `Len`: the number of bytes of the unread portion. -/
def Reader.Len (r : Reader) : Nat :=
  if r.i ≥ r.s.length then 0 else r.s.length - r.i

/-- Read a reader to the end: the bytes obtained and the reader afterwards. -/
def Reader.ReadAll (r : Reader) : Bytes × Reader :=
  (r.s.drop r.i, { r with i := max r.i r.s.length })

/-- The state of a `bytes.Buffer`: contents and read offset. -/
structure Buffer where
  buf : Bytes
  off : Nat
deriving DecidableEq, Repr

/-- The method `Len` of a buffer: the number of unread bytes. -/
def Buffer.Len (b : Buffer) : Nat := b.buf.length - b.off

/-- The method `Bytes` of a buffer: the unread portion. -/
def Buffer.Bytes (b : Buffer) : Bytes := b.buf.drop b.off

/-- The dynamic types of `io.Reader` that `setBodyReader` tells apart. -/
inductive IoReader where
  | stringsReader (v : Reader)
  | bytesBuffer (v : Buffer)
  | bytesReader (v : Reader)
  | other (rest : Bytes)
deriving DecidableEq, Repr

/-- Read an `io.Reader` to the end: the bytes obtained and the reader
afterwards. -/
def IoReader.ReadAll : IoReader → Bytes × IoReader
  | .stringsReader v => ((v.ReadAll).1, .stringsReader (v.ReadAll).2)
  | .bytesBuffer v => (v.Bytes, .bytesBuffer { v with off := max v.off v.buf.length })
  | .bytesReader v => ((v.ReadAll).1, .bytesReader (v.ReadAll).2)
  | .other rest => (rest, .other [])

/-- The three closures that `setBodyReader` installs as `GetBody`, each with
the variable it captures. -/
inductive GetBodyFn where
  | stringsSnapshot (snapshot : Reader)
  | bufferBytes (buf : Bytes)
  | bytesSnapshot (snapshot : Reader)
deriving DecidableEq, Repr

/-- Invoking a `GetBody` closure.  The snapshot closures return a reader over
a copy of the captured value (`r := snapshot`), so the captured variable is
never advanced; the error result is always nil. -/
def GetBodyFn.call : GetBodyFn → Except GoError IoReader
  | .stringsSnapshot snapshot => .ok (.stringsReader snapshot)
  | .bufferBytes buf => .ok (.bytesReader (NewReader buf))
  | .bytesSnapshot snapshot => .ok (.bytesReader snapshot)

/-! ## Header keys and the header map -/

/-- The predicate `validHeaderFieldByte` of `net/textproto`: the token
characters of RFC 7230 (letters, digits and the fifteen listed symbols). -/
def validHeaderFieldByte (c : Char) : Bool :=
  c.isAlphanum ||
    [33, 35, 36, 37, 38, 39, 42, 43, 45, 46, 94, 95, 96, 124, 126].contains c.toNat

/-- The casing loop of `canonicalMIMEHeaderKey`: upper case for the first
letter and after each dash, lower case elsewhere. -/
def canonLoop (upper : Bool) : List Char → List Char
  | [] => []
  | c :: cs =>
    let c1 := if upper && c.isLower then c.toUpper
              else if !upper && c.isUpper then c.toLower else c
    c1 :: canonLoop (c1 == '-') cs

/-- The slow path `canonicalMIMEHeaderKey` of `net/textproto`: a key with a
byte that is not a token character is returned unchanged. -/
def canonicalMIMEHeaderKey (a : List Char) : List Char :=
  if a.all validHeaderFieldByte then canonLoop true a else a

/-- The quick check of `CanonicalMIMEHeaderKey`: scan for the first byte that
is invalid or wrongly cased. -/
def quickCheck (whole : List Char) (upper : Bool) : List Char → List Char
  | [] => whole
  | c :: cs =>
    if !validHeaderFieldByte c then whole
    else if upper && c.isLower then canonicalMIMEHeaderKey whole
    else if !upper && c.isUpper then canonicalMIMEHeaderKey whole
    else quickCheck whole (c == '-') cs

/-- The function `textproto.CanonicalMIMEHeaderKey`, which every method of
`http.Header` applies to its key argument. -/
def CanonicalMIMEHeaderKey (s : String) : String := ⟨quickCheck s.data true s.data⟩

/-- The type `http.Header` (also the shape of `url.Values`):
`map[string][]string`. -/
abbrev Header := List (String × List String)

/-- Raw map lookup `h[k]`. -/
def Header.index (h : Header) (k : String) : Option (List String) :=
  match h with
  | [] => none
  | (k1, vs) :: rest => if k1 = k then some vs else Header.index rest k

/-- Raw map assignment `h[k] = vs`. -/
def Header.assign (h : Header) (k : String) (vs : List String) : Header :=
  match h with
  | [] => [(k, vs)]
  | (k1, vs1) :: rest =>
    if k1 = k then (k, vs) :: rest else (k1, vs1) :: Header.assign rest k vs

/-- The method `Header.Set`: replace the values of the canonical key. -/
def Header.Set (h : Header) (key value : String) : Header :=
  Header.assign h (CanonicalMIMEHeaderKey key) [value]

/-- The method `Header.Add`: append to the values of the canonical key. -/
def Header.Add (h : Header) (key value : String) : Header :=
  Header.assign h (CanonicalMIMEHeaderKey key)
    ((Header.index h (CanonicalMIMEHeaderKey key)).getD [] ++ [value])

/-- The method `Header.Values`: all values of the canonical key. -/
def Header.Values (h : Header) (key : String) : List String :=
  (Header.index h (CanonicalMIMEHeaderKey key)).getD []

/-- The method `Header.Get`: the first value of the canonical key, or the
empty string. -/
def Header.Get (h : Header) (key : String) : String :=
  match Header.index h (CanonicalMIMEHeaderKey key) with
  | some (v :: _) => v
  | _ => ""

/-! ## request.go -/

/-- The constant `Version` of client.go. -/
def Version : String := "0.0.1"

/-- The type `Request` (an `http.Request`): the fields the builder touches. -/
structure Request (U : Type) where
  Method : String
  URL : U
  Header : Header
  Body : Option IoReader
  ContentLength : Int
  GetBody : Option GetBodyFn
deriving DecidableEq, Repr

/-- A body passed as `interface{}`: a value of dynamic type `string`, or any
other value. -/
inductive Body (β : Type) where
  | str (b : String)
  | val (data : β)
deriving DecidableEq, Repr

/-- A raw `http.Response` as the transport returns it.  `Body` is the handle
of the response stream, or `none` for a nil `Body`. -/
structure HttpResponse where
  StatusCode : Int
  Header : Header
  Body : Option Nat
deriving DecidableEq, Repr

/-- What the code calls but does not define.  `httpNewRequest` is
`http.NewRequest(method, url, nil)`: it validates the method and parses the
URL.  `gzipWrite` and `gzipClose` are the two calls on the gzip writer that can
fail; `gzipClose d` is the content of the buffer once the writer that was fed
`d` is closed.  `encode` is `url.Values.Encode`; `newResponse` is the method
`Client.newResponse`, which decodes a raw response. -/
structure Platform (β U ρ : Type) where
  GOOS : String
  GOARCH : String
  httpNewRequest : String → String → Except GoError (String × U)
  jsonMarshal : β → Except GoError Bytes
  gzipWrite : Bytes → Option GoError
  gzipClose : Bytes → Except GoError Bytes
  encode : Header → String
  newResponse : HttpResponse → Nat → Except GoError ρ

section Builder

variable {β U ρ : Type}

/-- The function `NewRequest` (request.go, lines 18-27).  `http.NewRequest`
with a nil body yields an empty header map, a nil `Body`, content length 0 and
a nil `GetBody`. -/
def NewRequest (P : Platform β U ρ) (method url : String) : Except GoError (Request U) :=
  match P.httpNewRequest method url with
  | .error err => .error err
  | .ok (m, u) =>
    let h : Header := []
    let h := Header.Add h "User-Agent" ("Nessus/" ++ Version ++ " (" ++ P.GOOS ++ "-" ++ P.GOARCH ++ ")")
    let h := Header.Add h "Accept" "application/json"
    let h := Header.Set h "Content-Type" "application/json"
    .ok { Method := m, URL := u, Header := h, Body := none, ContentLength := 0, GetBody := none }

/-- The method `setBodyReader` (request.go, lines 104-136).  Its error result
is always nil, so the updated request alone is returned.  `none` is a nil
reader. -/
def setBodyReader (r : Request U) (body : Option IoReader) : Request U :=
  let r := { r with Body := body }
  match body with
  | none => r
  | some (.stringsReader v) =>
    { r with ContentLength := (v.Len : Int), GetBody := some (.stringsSnapshot v) }
  | some (.bytesBuffer v) =>
    { r with ContentLength := (v.Len : Int), GetBody := some (.bufferBytes v.Bytes) }
  | some (.bytesReader v) =>
    { r with ContentLength := (v.Len : Int), GetBody := some (.bytesSnapshot v) }
  | some (.other _) => r

/-- The method `setBodyJson` (request.go, lines 52-60). -/
def setBodyJson (P : Platform β U ρ) (r : Request U) (data : β) : Except GoError (Request U) :=
  match P.jsonMarshal data with
  | .error err => .error err
  | .ok body =>
    let r := { r with Header := Header.Set r.Header "Content-Type" "application/json" }
    .ok (setBodyReader r (some (.bytesReader (NewReader body))))

/-- The method `setBodyString` (request.go, lines 63-65). -/
def setBodyString (r : Request U) (body : String) : Except GoError (Request U) :=
  .ok (setBodyReader r (some (.stringsReader (NewReader (utf8 body)))))

/-- The method `setBodyGzip` (request.go, lines 69-101). -/
def setBodyGzip (P : Platform β U ρ) (r : Request U) (body : Body β) :
    Except GoError (Request U) :=
  match body with
  | .str b =>
    match P.gzipWrite (utf8 b) with
    | some err => .error err
    | none =>
      match P.gzipClose (utf8 b) with
      | .error err => .error err
      | .ok buf =>
        let r := { r with Header := Header.Add r.Header "Content-Encoding" "gzip" }
        let r := { r with Header := Header.Add r.Header "Vary" "Accept-Encoding" }
        .ok (setBodyReader r (some (.bytesReader (NewReader buf))))
  | .val b =>
    match P.jsonMarshal b with
    | .error err => .error err
    | .ok data =>
      match P.gzipWrite data with
      | some err => .error err
      | none =>
        match P.gzipClose data with
        | .error err => .error err
        | .ok buf =>
          let r := { r with Header := Header.Add r.Header "Content-Encoding" "gzip" }
          let r := { r with Header := Header.Add r.Header "Vary" "Accept-Encoding" }
          let r := { r with Header := Header.Set r.Header "Content-Type" "application/json" }
          .ok (setBodyReader r (some (.bytesReader (NewReader buf))))

/-- The method `SetBody` (request.go, lines 36-49). -/
def SetBody (P : Platform β U ρ) (r : Request U) (body : Body β) (gzipCompress : Bool) :
    Except GoError (Request U) :=
  match body with
  | .str b => if gzipCompress then setBodyGzip P r (.str b) else setBodyString r b
  | .val b => if gzipCompress then setBodyGzip P r (.val b) else setBodyJson P r b

/-- The bytes a reader of the request's `Body` obtains, `none` for a nil
`Body`. -/
def Request.bodyBytes (r : Request U) : Option Bytes :=
  r.Body.map fun b => (b.ReadAll).1

/-- The request after its `Body` has been read to the end (as the transport
does when it sends the request). -/
def Request.drainBody (r : Request U) : Request U :=
  { r with Body := r.Body.map fun b => (b.ReadAll).2 }

/-- One invocation of the replay function `GetBody`, reading the stream it
returns to the end: the bytes obtained and the request afterwards.  `none`
when `GetBody` is nil or returns an error. -/
def Request.invokeGetBody (r : Request U) : Option (Bytes × Request U) :=
  match r.GetBody with
  | none => none
  | some g =>
    match g.call with
    | .error _ => none
    | .ok rc => some ((rc.ReadAll).1, r)

/-- The data of `n` successive invocations of `GetBody`, in order. -/
def Request.replayTimes : Nat → Request U → Option (List Bytes)
  | 0, _ => some []
  | n + 1, r =>
    match r.invokeGetBody with
    | none => none
    | some (data, r1) => (Request.replayTimes n r1).map (data :: ·)

end Builder

/-! ## client.go -/

/-- The type `Client`.  `Do` is the method `Do` of the configured
`http.Client` (field `c`): it sends a request and returns the raw response or
an error. -/
structure Client (U : Type) where
  Do : Request U → Except GoError HttpResponse
  serverURL : String
  accessKey : String
  secretKey : String

/-- The type `PerformRequestOptions`.  `Body` is `none` for a nil interface
value; `Params` and `Headers` list the entries of their maps. -/
structure PerformRequestOptions (β : Type) where
  Method : String
  Path : String
  Params : Header
  Body : Option (Body β)
  ContentType : String
  Headers : Header

/-- The observable effects of `PerformRequest`: the transport is handed a
request, a response stream is closed. -/
inductive Event (U : Type) where
  | dispatch (req : Request U)
  | close (stream : Nat)

/-- The streams closed in a trace, in order. -/
def closedStreams {U : Type} : List (Event U) → List Nat
  | [] => []
  | .dispatch _ :: t => closedStreams t
  | .close s :: t => s :: closedStreams t

/-- The requests handed to the transport in a trace, in order. -/
def dispatched {U : Type} : List (Event U) → List (Request U)
  | [] => []
  | .dispatch r :: t => r :: dispatched t
  | .close _ :: t => dispatched t

section Orchestrator

variable {β U ρ : Type}

/-- The value of `fmt.Sprintf("accessKey=%s; secretKey=%s", k, s)`. -/
def apiKeys (k s : String) : String := "accessKey=" ++ k ++ "; secretKey=" ++ s

/-- The URL string passed to `NewRequest` (client.go, lines 85-90). -/
def requestURL (P : Platform β U ρ) (c : Client U) (opt : PerformRequestOptions β) : String :=
  let pathWithParmas :=
    if opt.Params.length > 0 then opt.Path ++ "?" ++ P.encode opt.Params else opt.Path
  c.serverURL ++ pathWithParmas

/-- The loop over the extra headers (client.go, lines 102-108). -/
def mergeHeaders (h : Header) (extra : Header) : Header :=
  if extra.length > 0 then
    extra.foldl (fun h kv => kv.2.foldl (fun h val => Header.Add h kv.1 val) h) h
  else h

/-- The values the extra headers hold for the stored key `k`: the values of
every entry whose canonical key is `k`, in the order the loop visits them. -/
def Header.extraValues (extra : Header) (k : String) : List String :=
  (extra.filter fun kv => CanonicalMIMEHeaderKey kv.1 = k).flatMap fun kv => kv.2

/-- The request of `PerformRequest` before the extra headers are merged
(client.go, lines 85-100). -/
def authRequest (P : Platform β U ρ) (c : Client U) (opt : PerformRequestOptions β) :
    Except GoError (Request U) :=
  match NewRequest P opt.Method (requestURL P c opt) with
  | .error err => .error err
  | .ok req =>
    let req := { req with Header := Header.Set req.Header "X-ApiKeys" (apiKeys c.accessKey c.secretKey) }
    let req := if opt.ContentType != "" then
        { req with Header := Header.Set req.Header "Content-Type" opt.ContentType }
      else req
    .ok req

/-- The request of `PerformRequest` once the extra headers are merged
(client.go, lines 85-108). -/
def prepareRequest (P : Platform β U ρ) (c : Client U) (opt : PerformRequestOptions β) :
    Except GoError (Request U) :=
  match authRequest P c opt with
  | .error err => .error err
  | .ok req => .ok { req with Header := mergeHeaders req.Header opt.Headers }

/-- The request of `PerformRequest` at the point of dispatch, or the error it
returns before that (client.go, lines 85-116). -/
def buildRequest (P : Platform β U ρ) (c : Client U) (opt : PerformRequestOptions β) :
    Except GoError (Request U) :=
  match prepareRequest P c opt with
  | .error err => .error err
  | .ok req =>
    match opt.Body with
    | none => .ok req
    | some body => SetBody P req body false

/-- The method `PerformRequest` (client.go, lines 80-135): its result and the
trace of its effects.  The deferred `Close` runs when the function returns, on
either outcome of `newResponse`. -/
def PerformRequest (P : Platform β U ρ) (c : Client U) (opt : PerformRequestOptions β) :
    Except GoError ρ × List (Event U) :=
  match buildRequest P c opt with
  | .error err => (.error err, [])
  | .ok req =>
    match c.Do req with
    | .error err => (.error err, [.dispatch req])
    | .ok res =>
      let deferred : List (Event U) :=
        match res.Body with
        | some stream => [.close stream]
        | none => []
      match P.newResponse res 0 with
      | .error err => (.error err, .dispatch req :: deferred)
      | .ok resp => (.ok resp, .dispatch req :: deferred)

end Orchestrator

/-! ## Concrete instances used to evaluate the definitions -/

/-- A platform on which everything can be computed.  Structured values are
`Option String`: `some s` is a value whose JSON encoding is `s` (a
`json.RawMessage`), `none` a value `json.Marshal` rejects (such as a channel).
The compressor is a stand-in that stores its input behind the two gzip magic
bytes and never fails. -/
def demoPlatform : Platform (Option String) String Int where
  GOOS := "linux"
  GOARCH := "amd64"
  httpNewRequest := fun method url =>
    if url.data.contains ' ' then .error ⟨"invalid URL"⟩
    else .ok (if method = "" then "GET" else method, url)
  jsonMarshal := fun v =>
    match v with
    | some s => .ok (utf8 s)
    | none => .error ⟨"json: unsupported type"⟩
  gzipWrite := fun _ => none
  gzipClose := fun d => .ok (31 :: 139 :: d)
  encode := fun vs =>
    String.intercalate "&" (vs.flatMap fun kv => kv.2.map fun v => kv.1 ++ "=" ++ v)
  newResponse := fun res _ =>
    if res.StatusCode = 200 then .ok res.StatusCode else .error ⟨"cannot decode"⟩

/-- The inverse of the stand-in compressor of `demoPlatform`. -/
def demoGunzip : Bytes → Option Bytes
  | 31 :: 139 :: d => some d
  | _ => none

/-- A client whose transport answers `GET` with status 200 and stream 7,
`PUT` with status 500 and stream 8, and fails on every other method. -/
def demoClient : Client String where
  Do := fun req =>
    if req.Method = "GET" then .ok { StatusCode := 200, Header := [], Body := some 7 }
    else if req.Method = "PUT" then .ok { StatusCode := 500, Header := [], Body := some 8 }
    else .error ⟨"connection refused"⟩
  serverURL := "https://nessus.local:8834"
  accessKey := "ak"
  secretKey := "sk"

/-- A request without a body whose content type was set to `text/plain`. -/
def demoRequest : Request String where
  Method := "POST"
  URL := "https://nessus.local:8834/scans"
  Header := [("Accept", ["application/json"]), ("Content-Type", ["text/plain"])]
  Body := none
  ContentLength := 0
  GetBody := none

/-- The call of the end-to-end scenario: `GET /scans` with no query
parameters, no body, no content-type override and no extra headers. -/
def scansCall {β : Type} : PerformRequestOptions β where
  Method := "GET"
  Path := "/scans"
  Params := []
  Body := none
  ContentType := ""
  Headers := []

/-- A call with a structured body, a content-type override and extra headers
that name `Content-Type` and `X-ApiKeys` in lower case. -/
def demoCall : PerformRequestOptions (Option String) where
  Method := "POST"
  Path := "/scans"
  Params := [("limit", ["5"])]
  Body := some (.val (some "[1,2]"))
  ContentType := "text/plain"
  Headers := [("content-type", ["text/csv"]), ("x-apikeys", ["zz"]), ("X-Trace", ["a", "b"])]

/-- A call whose body cannot be serialized. -/
def demoBadCall : PerformRequestOptions (Option String) where
  Method := "POST"
  Path := "/scans"
  Params := []
  Body := some (.val none)
  ContentType := ""
  Headers := []

/-- A call with a raw string body and a content-type override; the transport
of `demoClient` answers it with status 500, which `newResponse` rejects. -/
def demoStringCall : PerformRequestOptions (Option String) where
  Method := "PUT"
  Path := "/scans/1"
  Params := []
  Body := some (.str "hi")
  ContentType := "text/plain"
  Headers := [("Content-Type", ["text/csv"])]

/-- The default headers of `NewRequest` on `demoPlatform`. -/
def demoDefaults : Header :=
  [("User-Agent", ["Nessus/0.0.1 (linux-amd64)"]),
   ("Accept", ["application/json"]),
   ("Content-Type", ["application/json"])]

/-- The request `SetBody` makes of `demoRequest` for the structured body
`[1,2]` with compression. -/
def demoGzipped : Request String where
  Method := "POST"
  URL := "https://nessus.local:8834/scans"
  Header := [("Accept", ["application/json"]), ("Content-Type", ["application/json"]),
             ("Content-Encoding", ["gzip"]), ("Vary", ["Accept-Encoding"])]
  Body := some (.bytesReader { s := [31, 139, 91, 49, 44, 50, 93], i := 0 })
  ContentLength := 7
  GetBody := some (.bytesSnapshot { s := [31, 139, 91, 49, 44, 50, 93], i := 0 })

/-- The request `SetBody` makes of `demoRequest` for the structured body
`[1,2]` without compression. -/
def demoJson : Request String where
  Method := "POST"
  URL := "https://nessus.local:8834/scans"
  Header := [("Accept", ["application/json"]), ("Content-Type", ["application/json"])]
  Body := some (.bytesReader { s := [91, 49, 44, 50, 93], i := 0 })
  ContentLength := 5
  GetBody := some (.bytesSnapshot { s := [91, 49, 44, 50, 93], i := 0 })

/-- The request `SetBody` makes of `demoRequest` for the string `hi` with
compression. -/
def demoGzippedString : Request String where
  Method := "POST"
  URL := "https://nessus.local:8834/scans"
  Header := [("Accept", ["application/json"]), ("Content-Type", ["text/plain"]),
             ("Content-Encoding", ["gzip"]), ("Vary", ["Accept-Encoding"])]
  Body := some (.bytesReader { s := [31, 139, 104, 105], i := 0 })
  ContentLength := 4
  GetBody := some (.bytesSnapshot { s := [31, 139, 104, 105], i := 0 })

/-- The request `NewRequest` returns on `demoPlatform` for the given method
and URL. -/
def demoFresh (method url : String) : Request String where
  Method := method
  URL := url
  Header := demoDefaults
  Body := none
  ContentLength := 0
  GetBody := none

/-- The request `SetBody` makes of a fresh request for the string `hi` with
compression. -/
def demoFreshGzipped : Request String where
  Method := "POST"
  URL := "https://nessus.local:8834/scans"
  Header := demoDefaults ++ [("Content-Encoding", ["gzip"]), ("Vary", ["Accept-Encoding"])]
  Body := some (.bytesReader { s := [31, 139, 104, 105], i := 0 })
  ContentLength := 4
  GetBody := some (.bytesSnapshot { s := [31, 139, 104, 105], i := 0 })

/-- The request of `demoCall` before the extra headers are merged. -/
def demoAuth : Request String where
  Method := "POST"
  URL := "https://nessus.local:8834/scans?limit=5"
  Header := [("User-Agent", ["Nessus/0.0.1 (linux-amd64)"]),
             ("Accept", ["application/json"]),
             ("Content-Type", ["text/plain"]),
             ("X-Apikeys", ["accessKey=ak; secretKey=sk"])]
  Body := none
  ContentLength := 0
  GetBody := none

/-- The request of `demoCall` handed to the transport. -/
def demoBuilt : Request String where
  Method := "POST"
  URL := "https://nessus.local:8834/scans?limit=5"
  Header := [("User-Agent", ["Nessus/0.0.1 (linux-amd64)"]),
             ("Accept", ["application/json"]),
             ("Content-Type", ["application/json"]),
             ("X-Apikeys", ["accessKey=ak; secretKey=sk", "zz"]),
             ("X-Trace", ["a", "b"])]
  Body := some (.bytesReader { s := [91, 49, 44, 50, 93], i := 0 })
  ContentLength := 5
  GetBody := some (.bytesSnapshot { s := [91, 49, 44, 50, 93], i := 0 })

/-- The request of `demoBadCall` once the extra headers are merged. -/
def demoBadPrepared : Request String where
  Method := "POST"
  URL := "https://nessus.local:8834/scans"
  Header := demoDefaults ++ [("X-Apikeys", ["accessKey=ak; secretKey=sk"])]
  Body := none
  ContentLength := 0
  GetBody := none

/-- The request of `demoStringCall` handed to the transport. -/
def demoStringBuilt : Request String where
  Method := "PUT"
  URL := "https://nessus.local:8834/scans/1"
  Header := [("User-Agent", ["Nessus/0.0.1 (linux-amd64)"]),
             ("Accept", ["application/json"]),
             ("Content-Type", ["text/plain", "text/csv"]),
             ("X-Apikeys", ["accessKey=ak; secretKey=sk"])]
  Body := some (.stringsReader { s := [104, 105], i := 0 })
  ContentLength := 2
  GetBody := some (.stringsSnapshot { s := [104, 105], i := 0 })

/-! ## Lemmas on the header map -/

theorem Header.index_assign (h : Header) (k k1 : String) (vs : List String) :
    Header.index (Header.assign h k vs) k1 = if k = k1 then some vs else Header.index h k1 := by
  induction h with
  | nil => simp [Header.assign, Header.index]
  | cons e rest ih =>
    obtain ⟨k0, vs0⟩ := e
    by_cases h0 : k0 = k
    · subst h0
      by_cases h1 : k0 = k1 <;> simp [Header.assign, Header.index, h1]
    · by_cases h1 : k0 = k1
      · subst h1
        have h2 : ¬ k = k0 := fun e => h0 e.symm
        simp [Header.assign, Header.index, h0, h2]
      · simp [Header.assign, Header.index, h0, h1, ih]

theorem Header.Values_Set (h : Header) (key value name : String) :
    Header.Values (Header.Set h key value) name =
      if CanonicalMIMEHeaderKey key = CanonicalMIMEHeaderKey name then [value]
      else Header.Values h name := by
  unfold Header.Values Header.Set
  rw [Header.index_assign]
  split <;> rfl

theorem Header.Values_Add (h : Header) (key value name : String) :
    Header.Values (Header.Add h key value) name =
      if CanonicalMIMEHeaderKey key = CanonicalMIMEHeaderKey name then Header.Values h name ++ [value]
      else Header.Values h name := by
  unfold Header.Values Header.Add
  rw [Header.index_assign]
  split
  · next e => simp [e]
  · rfl

theorem Header.Get_eq_head (h : Header) (name : String) :
    Header.Get h name = (Header.Values h name).headD "" := by
  unfold Header.Get Header.Values
  cases Header.index h (CanonicalMIMEHeaderKey name) with
  | none => rfl
  | some vs => cases vs <;> rfl

theorem Header.index_Add (h : Header) (key value k : String) :
    Header.index (Header.Add h key value) k =
      if CanonicalMIMEHeaderKey key = k then some ((Header.index h k).getD [] ++ [value])
      else Header.index h k := by
  unfold Header.Add
  rw [Header.index_assign]
  split
  · next e => rw [e]
  · rfl

theorem Header.index_foldl_Add (vs : List String) (h : Header) (key k : String) :
    Header.index (vs.foldl (fun h val => Header.Add h key val) h) k =
      if CanonicalMIMEHeaderKey key = k ∧ vs ≠ [] then some ((Header.index h k).getD [] ++ vs)
      else Header.index h k := by
  induction vs generalizing h with
  | nil => simp
  | cons v t ih =>
    rw [List.foldl_cons, ih, Header.index_Add]
    by_cases hk : CanonicalMIMEHeaderKey key = k
    · by_cases ht : t = []
      · simp [hk, ht]
      · simp [hk, ht]
    · simp [hk]

theorem Header.extraValues_cons (k0 : String) (vs0 : List String) (t : Header) (k : String) :
    Header.extraValues ((k0, vs0) :: t) k =
      if CanonicalMIMEHeaderKey k0 = k then vs0 ++ Header.extraValues t k
      else Header.extraValues t k := by
  unfold Header.extraValues
  by_cases hk : CanonicalMIMEHeaderKey k0 = k <;> simp [List.filter_cons, hk]

theorem Header.index_mergeHeaders (extra : Header) (h : Header) (k : String) :
    Header.index (mergeHeaders h extra) k =
      if Header.extraValues extra k = [] then Header.index h k
      else some ((Header.index h k).getD [] ++ Header.extraValues extra k) := by
  have key : ∀ (extra : Header) (h : Header),
      Header.index (extra.foldl (fun h kv => kv.2.foldl (fun h val => Header.Add h kv.1 val) h) h) k =
      if Header.extraValues extra k = [] then Header.index h k
      else some ((Header.index h k).getD [] ++ Header.extraValues extra k) := by
    intro extra
    induction extra with
    | nil => intro h; simp [Header.extraValues]
    | cons e t ih =>
      intro h
      obtain ⟨k0, vs0⟩ := e
      rw [List.foldl_cons, ih, Header.index_foldl_Add, Header.extraValues_cons]
      by_cases hk : CanonicalMIMEHeaderKey k0 = k
      · by_cases hv : vs0 = []
        · simp [hk, hv]
        · by_cases ht : Header.extraValues t k = []
          · simp [hk, hv, ht]
          · simp [hk, hv, ht]
      · simp [hk]
  unfold mergeHeaders
  split
  · exact key extra h
  · next hl =>
    have : extra = [] := by
      cases extra with
      | nil => rfl
      | cons a b => simp at hl
    subst this
    simp [Header.extraValues]

theorem Header.Values_mergeHeaders (extra : Header) (h : Header) (name : String) :
    Header.Values (mergeHeaders h extra) name =
      Header.Values h name ++ Header.extraValues extra (CanonicalMIMEHeaderKey name) := by
  unfold Header.Values
  rw [Header.index_mergeHeaders]
  split
  · next e => simp [e]
  · simp

/-! ## Lemmas on the request builder -/

section BuilderLemmas

variable {β U ρ : Type}

/-- A successful `SetBody` is `setBodyReader` applied to a fresh reader over
the payload, on the request with some updated header map. -/
theorem SetBody_ok_shape (P : Platform β U ρ) (r r1 : Request U) (body : Body β) (z : Bool)
    (h : SetBody P r body z = .ok r1) :
    ∃ (hd : Header) (b : Bytes),
      r1 = setBodyReader { r with Header := hd } (some (.stringsReader (NewReader b))) ∨
      r1 = setBodyReader { r with Header := hd } (some (.bytesReader (NewReader b))) := by
  cases body with
  | str b =>
    cases z with
    | false =>
      simp only [SetBody, setBodyString, Bool.false_eq_true, if_false, Except.ok.injEq] at h
      exact ⟨r.Header, utf8 b, Or.inl h.symm⟩
    | true =>
      simp only [SetBody, setBodyGzip, if_true] at h
      split at h
      · cases h
      · split at h
        · cases h
        · next buf _ =>
          simp only [Except.ok.injEq] at h
          exact ⟨_, buf, Or.inr h.symm⟩
  | val d =>
    cases z with
    | false =>
      simp only [SetBody, setBodyJson, Bool.false_eq_true, if_false] at h
      split at h
      · cases h
      · next bs _ =>
        simp only [Except.ok.injEq] at h
        exact ⟨_, bs, Or.inr h.symm⟩
    | true =>
      simp only [SetBody, setBodyGzip, if_true] at h
      split at h
      · cases h
      · split at h
        · cases h
        · split at h
          · cases h
          · next buf _ =>
            simp only [Except.ok.injEq] at h
            exact ⟨_, buf, Or.inr h.symm⟩

theorem NewReader_Len (b : Bytes) : (NewReader b).Len = b.length := by
  unfold Reader.Len NewReader
  cases b <;> simp

theorem replayTimes_of_invoke (r : Request U) (data : Bytes)
    (h : r.invokeGetBody = some (data, r)) (n : Nat) :
    r.replayTimes n = some (List.replicate n data) := by
  induction n with
  | zero => rfl
  | succ n ih => simp [Request.replayTimes, h, ih, List.replicate_succ]

end BuilderLemmas

/-! ## Canonical forms of the header names the code uses -/

theorem canon_UserAgent : CanonicalMIMEHeaderKey "User-Agent" = "User-Agent" := by decide

theorem canon_Accept : CanonicalMIMEHeaderKey "Accept" = "Accept" := by decide

theorem canon_ContentType : CanonicalMIMEHeaderKey "Content-Type" = "Content-Type" := by decide

theorem canon_ContentEncoding :
    CanonicalMIMEHeaderKey "Content-Encoding" = "Content-Encoding" := by decide

theorem canon_Vary : CanonicalMIMEHeaderKey "Vary" = "Vary" := by decide

theorem canon_XApiKeys : CanonicalMIMEHeaderKey "X-ApiKeys" = "X-Apikeys" := by decide

/-! ## Lemmas on the stages of the builder and of PerformRequest -/

section StageLemmas

variable {β U ρ : Type}

theorem setBodyReader_Header (r : Request U) (body : Option IoReader) :
    (setBodyReader r body).Header = r.Header := by
  unfold setBodyReader
  split <;> rfl

/-- The header map after a successful `SetBody`, case by case. -/
theorem SetBody_Header (P : Platform β U ρ) (r r1 : Request U) (body : Body β) (z : Bool)
    (h : SetBody P r body z = .ok r1) :
    r1.Header =
      match body, z with
      | .str _, false => r.Header
      | .str _, true =>
        Header.Add (Header.Add r.Header "Content-Encoding" "gzip") "Vary" "Accept-Encoding"
      | .val _, false => Header.Set r.Header "Content-Type" "application/json"
      | .val _, true =>
        Header.Set
          (Header.Add (Header.Add r.Header "Content-Encoding" "gzip") "Vary" "Accept-Encoding")
          "Content-Type" "application/json" := by
  cases body with
  | str b =>
    cases z with
    | false =>
      simp only [SetBody, setBodyString, Bool.false_eq_true, if_false, Except.ok.injEq] at h
      subst h
      simp [setBodyReader_Header]
    | true =>
      simp only [SetBody, setBodyGzip, if_true] at h
      split at h
      · cases h
      · split at h
        · cases h
        · simp only [Except.ok.injEq] at h
          subst h
          simp [setBodyReader_Header]
  | val d =>
    cases z with
    | false =>
      simp only [SetBody, setBodyJson, Bool.false_eq_true, if_false] at h
      split at h
      · cases h
      · simp only [Except.ok.injEq] at h
        subst h
        simp [setBodyReader_Header]
    | true =>
      simp only [SetBody, setBodyGzip, if_true] at h
      split at h
      · cases h
      · split at h
        · cases h
        · split at h
          · cases h
          · simp only [Except.ok.injEq] at h
            subst h
            simp [setBodyReader_Header]

/-- A request that `NewRequest` returns, written out. -/
theorem NewRequest_ok (P : Platform β U ρ) (method url : String) (r : Request U)
    (h : NewRequest P method url = .ok r) :
    ∃ m u, P.httpNewRequest method url = .ok (m, u) ∧
      r = { Method := m, URL := u,
            Header := [("User-Agent", ["Nessus/" ++ Version ++ " (" ++ P.GOOS ++ "-" ++ P.GOARCH ++ ")"]),
                       ("Accept", ["application/json"]),
                       ("Content-Type", ["application/json"])],
            Body := none, ContentLength := 0, GetBody := none } := by
  unfold NewRequest at h
  split at h
  · cases h
  · next m u hm =>
    simp only [Except.ok.injEq] at h
    refine ⟨m, u, hm, ?_⟩
    subst h
    simp [Header.Add, Header.Set, Header.assign, Header.index, canon_UserAgent, canon_Accept,
      canon_ContentType]

end StageLemmas

/-! ## Lemmas on the stages of PerformRequest -/

section OrchestratorLemmas

variable {β U ρ : Type}

theorem Header.extraValues_eq_nil (extra : Header) (k : String)
    (h : ∀ kv ∈ extra, CanonicalMIMEHeaderKey kv.1 ≠ k) : Header.extraValues extra k = [] := by
  induction extra with
  | nil => rfl
  | cons e t ih =>
    obtain ⟨k0, vs0⟩ := e
    rw [Header.extraValues_cons]
    have h0 : CanonicalMIMEHeaderKey k0 ≠ k := h (k0, vs0) (List.mem_cons_self _ _)
    simp only [h0, if_false]
    exact ih fun kv hkv => h kv (List.mem_cons_of_mem _ hkv)

/-- When no two entries of the extras share a canonical key, the extra values
of an entry's key are the values of that entry. -/
theorem Header.extraValues_of_nodup (extra : Header)
    (hn : (extra.map fun kv => CanonicalMIMEHeaderKey kv.1).Nodup)
    (kv : String × List String) (hkv : kv ∈ extra) :
    Header.extraValues extra (CanonicalMIMEHeaderKey kv.1) = kv.2 := by
  induction extra with
  | nil => cases hkv
  | cons e t ih =>
    obtain ⟨k0, vs0⟩ := e
    rw [List.map_cons, List.nodup_cons] at hn
    rw [Header.extraValues_cons]
    rcases List.mem_cons.mp hkv with heq | hmem
    · subst heq
      have hnil : Header.extraValues t (CanonicalMIMEHeaderKey k0) = [] := by
        apply Header.extraValues_eq_nil
        intro kv1 h1 e1
        exact hn.1 (List.mem_map.mpr ⟨kv1, h1, e1⟩)
      simp [hnil]
    · have hne : CanonicalMIMEHeaderKey k0 ≠ CanonicalMIMEHeaderKey kv.1 := by
        intro e1
        exact hn.1 (List.mem_map.mpr ⟨kv, hmem, e1.symm⟩)
      simp only [hne, if_false]
      exact ih hn.2 hmem

/-- The stage before the merge, written out. -/
theorem authRequest_ok (P : Platform β U ρ) (c : Client U) (opt : PerformRequestOptions β)
    (r0 : Request U) (h : NewRequest P opt.Method (requestURL P c opt) = .ok r0) :
    authRequest P c opt = .ok { r0 with Header :=
      (if opt.ContentType = "" then
        (Header.Set r0.Header "X-ApiKeys" (apiKeys c.accessKey c.secretKey))
      else
        (Header.Set (Header.Set r0.Header "X-ApiKeys" (apiKeys c.accessKey c.secretKey))
          "Content-Type" opt.ContentType)) } := by
  unfold authRequest
  rw [h]
  by_cases hc : opt.ContentType = "" <;> simp [hc]

theorem prepareRequest_ok (P : Platform β U ρ) (c : Client U) (opt : PerformRequestOptions β)
    (r0 : Request U) (h : authRequest P c opt = .ok r0) :
    prepareRequest P c opt = .ok { r0 with Header := mergeHeaders r0.Header opt.Headers } := by
  unfold prepareRequest
  rw [h]

theorem buildRequest_of_prepare (P : Platform β U ρ) (c : Client U)
    (opt : PerformRequestOptions β) (rp : Request U) (h : prepareRequest P c opt = .ok rp) :
    buildRequest P c opt =
      match opt.Body with
      | none => .ok rp
      | some body => SetBody P rp body false := by
  unfold buildRequest
  rw [h]

theorem prepare_of_build (P : Platform β U ρ) (c : Client U) (opt : PerformRequestOptions β)
    (req : Request U) (h : buildRequest P c opt = .ok req) :
    ∃ rp, prepareRequest P c opt = .ok rp := by
  unfold buildRequest at h
  split at h
  · cases h
  · next rp hp => exact ⟨rp, hp⟩

theorem auth_of_prepare (P : Platform β U ρ) (c : Client U) (opt : PerformRequestOptions β)
    (rp : Request U) (h : prepareRequest P c opt = .ok rp) :
    ∃ ra, authRequest P c opt = .ok ra := by
  unfold prepareRequest at h
  split at h
  · cases h
  · next ra ha => exact ⟨ra, ha⟩

theorem new_of_auth (P : Platform β U ρ) (c : Client U) (opt : PerformRequestOptions β)
    (ra : Request U) (h : authRequest P c opt = .ok ra) :
    ∃ r0, NewRequest P opt.Method (requestURL P c opt) = .ok r0 := by
  unfold authRequest at h
  split at h
  · cases h
  · next r0 h0 => exact ⟨r0, h0⟩

theorem PerformRequest_of_build_error (P : Platform β U ρ) (c : Client U)
    (opt : PerformRequestOptions β) (err : GoError) (h : buildRequest P c opt = .error err) :
    PerformRequest P c opt = (.error err, []) := by
  unfold PerformRequest
  rw [h]

theorem PerformRequest_of_do_error (P : Platform β U ρ) (c : Client U)
    (opt : PerformRequestOptions β) (req : Request U) (err : GoError)
    (h : buildRequest P c opt = .ok req) (hd : c.Do req = .error err) :
    PerformRequest P c opt = (.error err, [.dispatch req]) := by
  unfold PerformRequest
  simp only [h, hd]

theorem PerformRequest_of_do_ok (P : Platform β U ρ) (c : Client U)
    (opt : PerformRequestOptions β) (req : Request U) (res : HttpResponse)
    (h : buildRequest P c opt = .ok req) (hd : c.Do req = .ok res) :
    PerformRequest P c opt =
      (P.newResponse res 0,
        .dispatch req :: (match res.Body with
          | some stream => [.close stream]
          | none => [])) := by
  unfold PerformRequest
  simp only [h, hd]
  cases P.newResponse res 0 <;> rfl

theorem dispatched_PerformRequest (P : Platform β U ρ) (c : Client U)
    (opt : PerformRequestOptions β) (req : Request U) (h : buildRequest P c opt = .ok req) :
    dispatched (PerformRequest P c opt).2 = [req] := by
  cases hd : c.Do req with
  | error err => rw [PerformRequest_of_do_error P c opt req err h hd]; rfl
  | ok res =>
    rw [PerformRequest_of_do_ok P c opt req res h hd]
    cases res.Body <;> rfl

/-- The values of a header other than `Content-Type` are the same before and
after a successful `SetBody` without compression. -/
theorem SetBody_false_Values (P : Platform β U ρ) (r r1 : Request U) (body : Body β)
    (h : SetBody P r body false = .ok r1) (name : String)
    (hn : CanonicalMIMEHeaderKey name ≠ "Content-Type") :
    Header.Values r1.Header name = Header.Values r.Header name := by
  have hh := SetBody_Header P r r1 body false h
  cases body with
  | str b => simp only [] at hh; rw [hh]
  | val d =>
    simp only [] at hh
    rw [hh, Header.Values_Set, canon_ContentType]
    simp [Ne.symm hn]

end OrchestratorLemmas

/-! ## The claims -/

section Claims

variable {β U ρ : Type}

/-- C1: if `SetBody(body, compress)` succeeds, then the content length of the
request is the byte length of the data its replay function `GetBody` returns;
that data is the payload installed as the request body; any number of
invocations of `GetBody` return it again, also after the body has been read. -/
theorem SetBody_contentLength_replay (P : Platform β U ρ) (r r1 : Request U) (body : Body β)
    (z : Bool) (h : SetBody P r body z = .ok r1) :
    ∃ data : Bytes,
      r1.invokeGetBody = some (data, r1) ∧
      r1.ContentLength = (data.length : Int) ∧
      r1.bodyBytes = some data ∧
      (∀ n, r1.replayTimes n = some (List.replicate n data)) ∧
      (r1.drainBody).invokeGetBody = some (data, r1.drainBody) := by
  obtain ⟨hd, b, hr | hr⟩ := SetBody_ok_shape P r r1 body z h
  · have hi : r1.invokeGetBody = some (b, r1) := by
      subst hr
      simp [setBodyReader, Request.invokeGetBody, GetBodyFn.call, IoReader.ReadAll,
        Reader.ReadAll, NewReader]
    refine ⟨b, hi, ?_, ?_, replayTimes_of_invoke r1 b hi, ?_⟩
    · subst hr
      simp [setBodyReader, NewReader_Len]
    · subst hr
      simp [setBodyReader, Request.bodyBytes, IoReader.ReadAll, Reader.ReadAll, NewReader]
    · subst hr
      simp [setBodyReader, Request.invokeGetBody, Request.drainBody, GetBodyFn.call,
        IoReader.ReadAll, Reader.ReadAll, NewReader]
  · have hi : r1.invokeGetBody = some (b, r1) := by
      subst hr
      simp [setBodyReader, Request.invokeGetBody, GetBodyFn.call, IoReader.ReadAll,
        Reader.ReadAll, NewReader]
    refine ⟨b, hi, ?_, ?_, replayTimes_of_invoke r1 b hi, ?_⟩
    · subst hr
      simp [setBodyReader, NewReader_Len]
    · subst hr
      simp [setBodyReader, Request.bodyBytes, IoReader.ReadAll, Reader.ReadAll, NewReader]
    · subst hr
      simp [setBodyReader, Request.invokeGetBody, Request.drainBody, GetBodyFn.call,
        IoReader.ReadAll, Reader.ReadAll, NewReader]

/-- C2: a successful `SetBody` with a structured body, compressed or not,
leaves `Content-Type` equal to exactly `application/json`, whatever it was
before; `SetBody` with a raw string and no compression succeeds and leaves the
whole header map as it was; a raw string with compression leaves the
`Content-Type` values as they were. -/
theorem SetBody_contentType (P : Platform β U ρ) (r r1 : Request U) (body : Body β) (z : Bool)
    (h : SetBody P r body z = .ok r1) :
    (∀ d, body = .val d → Header.Values r1.Header "Content-Type" = ["application/json"]) ∧
    (∀ b, body = .str b → z = false → r1.Header = r.Header) ∧
    (∀ b, body = .str b →
      Header.Values r1.Header "Content-Type" = Header.Values r.Header "Content-Type") ∧
    (∀ b, ∃ r2, SetBody P r (.str b) false = .ok r2 ∧ r2.Header = r.Header) := by
  have hh := SetBody_Header P r r1 body z h
  refine ⟨?_, ?_, ?_, ?_⟩
  · intro d hd
    subst hd
    cases z <;> simp only [] at hh <;> rw [hh, Header.Values_Set] <;> simp
  · intro b hb hz
    subst hb hz
    exact hh
  · intro b hb
    subst hb
    cases z <;> simp only [] at hh <;> rw [hh]
    simp [Header.Values_Add, canon_ContentType, canon_ContentEncoding, canon_Vary]
  · intro b
    exact ⟨_, rfl, setBodyReader_Header _ _⟩

/-- C3: on a request freshly produced by `NewRequest`, after one successful
`SetBody(body, compress)` with a raw string or a structured body, the header
map holds `Content-Encoding: gzip` and `Vary: Accept-Encoding` if and only if
`compress` is true; without compression neither header has any value. -/
theorem NewRequest_SetBody_gzip_headers (P : Platform β U ρ) (method url : String)
    (r0 r1 : Request U) (body : Body β) (z : Bool)
    (h0 : NewRequest P method url = .ok r0) (h1 : SetBody P r0 body z = .ok r1) :
    (("gzip" ∈ Header.Values r1.Header "Content-Encoding" ∧
        "Accept-Encoding" ∈ Header.Values r1.Header "Vary") ↔ z = true) ∧
    Header.Values r1.Header "Content-Encoding" = (if z then ["gzip"] else []) ∧
    Header.Values r1.Header "Vary" = (if z then ["Accept-Encoding"] else []) := by
  have hh := SetBody_Header P r0 r1 body z h1
  obtain ⟨m, u, _, hr⟩ := NewRequest_ok P method url r0 h0
  have e0 : Header.Values r0.Header "Content-Encoding" = [] := by
    subst hr
    simp [Header.Values, Header.index, canon_ContentEncoding]
  have v0 : Header.Values r0.Header "Vary" = [] := by
    subst hr
    simp [Header.Values, Header.index, canon_Vary]
  have key : Header.Values r1.Header "Content-Encoding" = (if z then ["gzip"] else []) ∧
      Header.Values r1.Header "Vary" = (if z then ["Accept-Encoding"] else []) := by
    cases body <;> cases z <;> simp only [] at hh <;> rw [hh] <;>
      simp [Header.Values_Add, Header.Values_Set, canon_ContentType, canon_ContentEncoding,
        canon_Vary, e0, v0]
  refine ⟨?_, key.1, key.2⟩
  rw [key.1, key.2]
  cases z <;> simp

/-- C4: for a raw string or a structured body, when `SetBody(body, true)`
succeeds then `SetBody(body, false)` succeeds too, and decompressing the
payload installed by the former yields exactly the payload installed by the
latter: the bytes of the string, or the JSON serialization of the value.
`gunzip` is any function that inverts the compressor. -/
theorem SetBody_gzip_roundtrip (P : Platform β U ρ) (gunzip : Bytes → Option Bytes)
    (hinv : ∀ d out, P.gzipWrite d = none → P.gzipClose d = .ok out → gunzip out = some d)
    (r r1 : Request U) (body : Body β) (h : SetBody P r body true = .ok r1) :
    ∃ (r2 : Request U) (plain : Bytes),
      SetBody P r body false = .ok r2 ∧
      r2.bodyBytes = some plain ∧
      r1.bodyBytes.bind gunzip = some plain ∧
      (∀ b, body = .str b → plain = utf8 b) ∧
      (∀ d, body = .val d → P.jsonMarshal d = .ok plain) := by
  cases body with
  | str b =>
    simp only [SetBody, setBodyGzip, if_true] at h
    split at h
    · cases h
    · next hw =>
      split at h
      · cases h
      · next buf hc =>
        simp only [Except.ok.injEq] at h
        subst h
        refine ⟨setBodyReader r (some (.stringsReader (NewReader (utf8 b)))), utf8 b, rfl,
          ?_, ?_, ?_, ?_⟩
        · simp [setBodyReader, Request.bodyBytes, IoReader.ReadAll, Reader.ReadAll, NewReader]
        · simp [setBodyReader, Request.bodyBytes, IoReader.ReadAll, Reader.ReadAll, NewReader,
            hinv _ _ hw hc]
        · intro b1 hb
          cases hb
          rfl
        · intro d hd
          cases hd
  | val d =>
    simp only [SetBody, setBodyGzip, if_true] at h
    split at h
    · cases h
    · next data hm =>
      split at h
      · cases h
      · next hw =>
        split at h
        · cases h
        · next buf hc =>
          simp only [Except.ok.injEq] at h
          subst h
          refine ⟨setBodyReader
              { r with Header := Header.Set r.Header "Content-Type" "application/json" }
              (some (.bytesReader (NewReader data))), data, ?_, ?_, ?_, ?_, ?_⟩
          · simp only [SetBody, setBodyJson, Bool.false_eq_true, if_false, hm]
          · simp [setBodyReader, Request.bodyBytes, IoReader.ReadAll, Reader.ReadAll, NewReader]
          · simp [setBodyReader, Request.bodyBytes, IoReader.ReadAll, Reader.ReadAll, NewReader,
              hinv _ _ hw hc]
          · intro b hb
            cases hb
          · intro d1 hd
            cases hd
            exact hm

/-- C5: whenever `PerformRequest` builds a request (`NewRequest` succeeds),
the header `X-ApiKeys` is set and its value is exactly
`"accessKey=" ++ k ++ "; secretKey=" ++ s` for the configured keys `k` and `s`,
empty or not: it is the value `Get` returns and the first of the header's
values (extra headers of the same name come after it) on the request after the
merge of the extra headers and on the request handed to the transport. -/
theorem PerformRequest_apiKeys (P : Platform β U ρ) (c : Client U)
    (opt : PerformRequestOptions β) (r0 : Request U)
    (h0 : NewRequest P opt.Method (requestURL P c opt) = .ok r0) :
    ∃ rp, prepareRequest P c opt = .ok rp ∧
      Header.Get rp.Header "X-ApiKeys" =
        "accessKey=" ++ c.accessKey ++ "; secretKey=" ++ c.secretKey ∧
      ∀ req, buildRequest P c opt = .ok req →
        Header.Get req.Header "X-ApiKeys" =
          "accessKey=" ++ c.accessKey ++ "; secretKey=" ++ c.secretKey ∧
        Header.Values req.Header "X-ApiKeys" =
          ("accessKey=" ++ c.accessKey ++ "; secretKey=" ++ c.secretKey) ::
            Header.extraValues opt.Headers "X-Apikeys" ∧
        dispatched (PerformRequest P c opt).2 = [req] := by
  have ha := authRequest_ok P c opt r0 h0
  have hp := prepareRequest_ok P c opt _ ha
  have hv : ∀ name, CanonicalMIMEHeaderKey name = "X-Apikeys" →
      Header.Values (mergeHeaders
        (if opt.ContentType = "" then
          Header.Set r0.Header "X-ApiKeys" (apiKeys c.accessKey c.secretKey)
        else
          Header.Set (Header.Set r0.Header "X-ApiKeys" (apiKeys c.accessKey c.secretKey))
            "Content-Type" opt.ContentType) opt.Headers) name =
      apiKeys c.accessKey c.secretKey :: Header.extraValues opt.Headers "X-Apikeys" := by
    intro name hn
    rw [Header.Values_mergeHeaders, hn]
    by_cases hc : opt.ContentType = ""
    · simp [hc, Header.Values_Set, canon_XApiKeys, hn]
    · simp [hc, Header.Values_Set, canon_XApiKeys, canon_ContentType, hn]
  refine ⟨_, hp, ?_, ?_⟩
  · rw [Header.Get_eq_head]
    simp only []
    rw [hv "X-ApiKeys" canon_XApiKeys]
    rfl
  · intro req hb
    rw [buildRequest_of_prepare P c opt _ hp] at hb
    have hvals : Header.Values req.Header "X-ApiKeys" =
        apiKeys c.accessKey c.secretKey :: Header.extraValues opt.Headers "X-Apikeys" := by
      cases hbody : opt.Body with
      | none =>
        rw [hbody] at hb
        simp only [Except.ok.injEq] at hb
        subst hb
        exact hv "X-ApiKeys" canon_XApiKeys
      | some body =>
        rw [hbody] at hb
        simp only [] at hb
        rw [SetBody_false_Values P _ req body hb "X-ApiKeys" (by rw [canon_XApiKeys]; decide)]
        exact hv "X-ApiKeys" canon_XApiKeys
    refine ⟨?_, hvals, ?_⟩
    · rw [Header.Get_eq_head, hvals]
      rfl
    · apply dispatched_PerformRequest
      rw [buildRequest_of_prepare P c opt _ hp]
      exact hb

/-- C6: merging the extra headers of the call description is additive.  With
`r0` the request before the merge (defaults, `X-ApiKeys`, content-type
override) and `r1` the request after it: for every header name the values
after the merge are the values before it, in their order, followed by the
extra values held for that name, in the order the loop visits them; when no
two extra entries share a canonical name, those are the values of the entry
itself; a stored value list is only ever extended; a header that no extra
entry names is unchanged; the other fields of the request are unchanged. -/
theorem PerformRequest_merge_additive (P : Platform β U ρ) (c : Client U)
    (opt : PerformRequestOptions β) (r0 : Request U) (h : authRequest P c opt = .ok r0) :
    ∃ r1, prepareRequest P c opt = .ok r1 ∧
      (∀ name, Header.Values r1.Header name =
        Header.Values r0.Header name ++
          Header.extraValues opt.Headers (CanonicalMIMEHeaderKey name)) ∧
      ((opt.Headers.map fun kv => CanonicalMIMEHeaderKey kv.1).Nodup →
        ∀ kv ∈ opt.Headers,
          Header.Values r1.Header kv.1 = Header.Values r0.Header kv.1 ++ kv.2) ∧
      (∀ k vs, Header.index r0.Header k = some vs →
        ∃ ws, Header.index r1.Header k = some (vs ++ ws)) ∧
      (∀ k, (∀ kv ∈ opt.Headers, CanonicalMIMEHeaderKey kv.1 ≠ k) →
        Header.index r1.Header k = Header.index r0.Header k) ∧
      r1.Method = r0.Method ∧ r1.URL = r0.URL ∧ r1.Body = r0.Body ∧
      r1.ContentLength = r0.ContentLength ∧ r1.GetBody = r0.GetBody := by
  refine ⟨_, prepareRequest_ok P c opt r0 h, ?_, ?_, ?_, ?_, rfl, rfl, rfl, rfl, rfl⟩
  · intro name
    exact Header.Values_mergeHeaders _ _ _
  · intro hn kv hkv
    simp only []
    rw [Header.Values_mergeHeaders, Header.extraValues_of_nodup opt.Headers hn kv hkv]
  · intro k vs hk
    simp only []
    rw [Header.index_mergeHeaders, hk]
    by_cases he : Header.extraValues opt.Headers k = []
    · exact ⟨[], by simp [he]⟩
    · exact ⟨Header.extraValues opt.Headers k, by simp [he]⟩
  · intro k hk
    simp only []
    rw [Header.index_mergeHeaders, Header.extraValues_eq_nil opt.Headers k hk]
    simp

/-- C7: when the call description has a body, `PerformRequest` applies
`SetBody` to it with compression disabled and the outcome of that call decides
what follows: if it returns an error, `PerformRequest` returns that same
error, no response, and the transport is never invoked (the trace is empty);
if it succeeds, its result is the one request handed to the transport. -/
theorem PerformRequest_body_error (P : Platform β U ρ) (c : Client U)
    (opt : PerformRequestOptions β) (rp : Request U) (body : Body β)
    (hp : prepareRequest P c opt = .ok rp) (hb : opt.Body = some body) :
    (∀ err, SetBody P rp body false = .error err →
      PerformRequest P c opt = (.error err, []) ∧
      dispatched (PerformRequest P c opt).2 = []) ∧
    (∀ req, SetBody P rp body false = .ok req →
      dispatched (PerformRequest P c opt).2 = [req]) := by
  have hbuild : buildRequest P c opt = SetBody P rp body false := by
    rw [buildRequest_of_prepare P c opt rp hp, hb]
  constructor
  · intro err he
    have hpr := PerformRequest_of_build_error P c opt err (hbuild.trans he)
    exact ⟨hpr, by rw [hpr]; rfl⟩
  · intro req hok
    exact dispatched_PerformRequest P c opt req (hbuild.trans hok)

/-- C8: when the transport returns a response with a stream, `PerformRequest`
closes that stream exactly once, after the dispatch, and returns whatever
decoding returns, a response or an error; when the dispatch fails, or no
request is dispatched at all, no stream is closed. -/
theorem PerformRequest_closes_stream (P : Platform β U ρ) (c : Client U)
    (opt : PerformRequestOptions β) :
    (∀ req res stream, buildRequest P c opt = .ok req → c.Do req = .ok res →
      res.Body = some stream →
        (PerformRequest P c opt).1 = P.newResponse res 0 ∧
        (PerformRequest P c opt).2 = [.dispatch req, .close stream] ∧
        closedStreams (PerformRequest P c opt).2 = [stream]) ∧
    (∀ req err, buildRequest P c opt = .ok req → c.Do req = .error err →
      (PerformRequest P c opt).1 = .error err ∧
      closedStreams (PerformRequest P c opt).2 = []) ∧
    (∀ err, buildRequest P c opt = .error err →
      closedStreams (PerformRequest P c opt).2 = []) := by
  refine ⟨?_, ?_, ?_⟩
  · intro req res stream hb hd hs
    rw [PerformRequest_of_do_ok P c opt req res hb hd, hs]
    exact ⟨rfl, rfl, rfl⟩
  · intro req err hb hd
    rw [PerformRequest_of_do_error P c opt req err hb hd]
    exact ⟨rfl, rfl⟩
  · intro err hb
    rw [PerformRequest_of_build_error P c opt err hb]
    rfl

/-- C10: the request `PerformRequest` dispatches has `Content-Type` equal to
the single value `application/json` when the body is structured, whatever the
content-type override and the extra headers say; with a raw string body or no
body, a non-empty override is the first `Content-Type` value, followed by the
extra values for that name. -/
theorem PerformRequest_contentType (P : Platform β U ρ) (c : Client U)
    (opt : PerformRequestOptions β) (req : Request U)
    (hb : buildRequest P c opt = .ok req) :
    dispatched (PerformRequest P c opt).2 = [req] ∧
    (∀ d, opt.Body = some (.val d) →
      Header.Values req.Header "Content-Type" = ["application/json"]) ∧
    (opt.ContentType ≠ "" → (opt.Body = none ∨ ∃ b, opt.Body = some (.str b)) →
      Header.Get req.Header "Content-Type" = opt.ContentType ∧
      Header.Values req.Header "Content-Type" =
        opt.ContentType :: Header.extraValues opt.Headers "Content-Type") := by
  obtain ⟨rp, hp⟩ := prepare_of_build P c opt req hb
  obtain ⟨ra, ha⟩ := auth_of_prepare P c opt rp hp
  obtain ⟨r0, h0⟩ := new_of_auth P c opt ra ha
  have hb2 := hb
  rw [buildRequest_of_prepare P c opt rp hp] at hb2
  refine ⟨dispatched_PerformRequest P c opt req hb, ?_, ?_⟩
  · intro d hd
    rw [hd] at hb2
    simp only [] at hb2
    have hh := SetBody_Header P rp req (.val d) false hb2
    simp only [] at hh
    rw [hh, Header.Values_Set]
    simp
  · intro hct hbody
    have hrp : Header.Values rp.Header "Content-Type" =
        opt.ContentType :: Header.extraValues opt.Headers "Content-Type" := by
      have e1 := authRequest_ok P c opt r0 h0
      have e2 := prepareRequest_ok P c opt _ e1
      rw [hp] at e2
      simp only [Except.ok.injEq] at e2
      subst e2
      simp only []
      rw [Header.Values_mergeHeaders, canon_ContentType]
      simp [hct, Header.Values_Set]
    have hreq : Header.Values req.Header "Content-Type" =
        opt.ContentType :: Header.extraValues opt.Headers "Content-Type" := by
      rcases hbody with hnone | ⟨b, hstr⟩
      · rw [hnone] at hb2
        simp only [Except.ok.injEq] at hb2
        subst hb2
        exact hrp
      · rw [hstr] at hb2
        simp only [] at hb2
        have hh := SetBody_Header P rp req (.str b) false hb2
        simp only [] at hh
        rw [hh]
        exact hrp
    refine ⟨?_, hreq⟩
    rw [Header.Get_eq_head, hreq]
    rfl

/-- C9, as amended: for `GET /scans` with no query parameters, no body, no
content-type override and no extra headers, when `http.NewRequest` accepts the
method and the URL, the URL string is the base server URL followed by
`/scans`, and the one request handed to the transport has no body, content
length 0, no replay function, and a header map of exactly the three default
headers `User-Agent`, `Accept` and `Content-Type` plus `X-ApiKeys`, stored
under its canonical key. -/
theorem PerformRequest_scans (P : Platform β U ρ) (c : Client U) (m : String) (u : U)
    (h : P.httpNewRequest "GET" (c.serverURL ++ "/scans") = .ok (m, u)) :
    requestURL P c scansCall = c.serverURL ++ "/scans" ∧
    dispatched (PerformRequest P c scansCall).2 =
      [{ Method := m, URL := u,
         Header :=
           [("User-Agent", ["Nessus/" ++ Version ++ " (" ++ P.GOOS ++ "-" ++ P.GOARCH ++ ")"]),
            ("Accept", ["application/json"]),
            ("Content-Type", ["application/json"]),
            ("X-Apikeys", ["accessKey=" ++ c.accessKey ++ "; secretKey=" ++ c.secretKey])],
         Body := none, ContentLength := 0, GetBody := none }] := by
  have hu : requestURL P c (scansCall : PerformRequestOptions β) = c.serverURL ++ "/scans" := by
    simp [requestURL, scansCall]
  refine ⟨hu, ?_⟩
  have hn : NewRequest P (scansCall : PerformRequestOptions β).Method
      (requestURL P c scansCall) =
      .ok { Method := m, URL := u,
            Header :=
              [("User-Agent", ["Nessus/" ++ Version ++ " (" ++ P.GOOS ++ "-" ++ P.GOARCH ++ ")"]),
               ("Accept", ["application/json"]),
               ("Content-Type", ["application/json"])],
            Body := none, ContentLength := 0, GetBody := none } := by
    rw [hu]
    have hm : (scansCall : PerformRequestOptions β).Method = "GET" := rfl
    rw [hm]
    unfold NewRequest
    rw [h]
    simp [Header.Add, Header.Set, Header.assign, Header.index, canon_UserAgent, canon_Accept,
      canon_ContentType]
  have ha := authRequest_ok P c scansCall _ hn
  have hp := prepareRequest_ok P c scansCall _ ha
  have hb := buildRequest_of_prepare P c scansCall _ hp
  have hbody : (scansCall : PerformRequestOptions β).Body = none := rfl
  rw [hbody] at hb
  simp only [] at hb
  rw [dispatched_PerformRequest P c scansCall _ hb]
  simp [scansCall, mergeHeaders, Header.Set, Header.assign, canon_XApiKeys, apiKeys]

end Claims

/-! ## The theorems at concrete inputs -/

/-- C1 at a concrete input: the structured body `[1,2]` set with compression
on `demoRequest`. -/
theorem SetBody_contentLength_replay_witness :
    SetBody demoPlatform demoRequest (.val (some "[1,2]")) true = .ok demoGzipped ∧
    ∃ data : Bytes,
      demoGzipped.invokeGetBody = some (data, demoGzipped) ∧
      demoGzipped.ContentLength = (data.length : Int) ∧
      demoGzipped.bodyBytes = some data ∧
      (∀ n, demoGzipped.replayTimes n = some (List.replicate n data)) ∧
      (demoGzipped.drainBody).invokeGetBody = some (data, demoGzipped.drainBody) :=
  ⟨rfl,
    SetBody_contentLength_replay demoPlatform demoRequest demoGzipped (.val (some "[1,2]")) true
      rfl⟩

/-- C2 at a concrete input: a structured body replaces the content type
`text/plain` of `demoRequest` by `application/json`. -/
theorem SetBody_contentType_witness :
    SetBody demoPlatform demoRequest (.val (some "[1,2]")) false = .ok demoJson ∧
    Header.Values demoRequest.Header "Content-Type" = ["text/plain"] ∧
    Header.Values demoJson.Header "Content-Type" = ["application/json"] :=
  ⟨rfl, by decide,
    (SetBody_contentType demoPlatform demoRequest demoJson (.val (some "[1,2]")) false
      rfl).1 (some "[1,2]") rfl⟩

/-- C3 at a concrete input: a fresh request, then the string `hi` set with
compression. -/
theorem NewRequest_SetBody_gzip_headers_witness :
    NewRequest demoPlatform "POST" "https://nessus.local:8834/scans" =
      .ok (demoFresh "POST" "https://nessus.local:8834/scans") ∧
    SetBody demoPlatform (demoFresh "POST" "https://nessus.local:8834/scans") (.str "hi") true =
      .ok demoFreshGzipped ∧
    (("gzip" ∈ Header.Values demoFreshGzipped.Header "Content-Encoding" ∧
        "Accept-Encoding" ∈ Header.Values demoFreshGzipped.Header "Vary") ↔ true = true) ∧
    Header.Values demoFreshGzipped.Header "Content-Encoding" = (if true then ["gzip"] else []) ∧
    Header.Values demoFreshGzipped.Header "Vary" =
      (if true then ["Accept-Encoding"] else []) :=
  ⟨rfl, rfl,
    NewRequest_SetBody_gzip_headers demoPlatform "POST" "https://nessus.local:8834/scans"
      (demoFresh "POST" "https://nessus.local:8834/scans") demoFreshGzipped (.str "hi") true
      rfl rfl⟩

/-- C4 at a concrete input: the string `hi` on `demoPlatform`, whose compressor
is inverted by `demoGunzip`. -/
theorem SetBody_gzip_roundtrip_witness :
    SetBody demoPlatform demoRequest (.str "hi") true = .ok demoGzippedString ∧
    demoGzippedString.bodyBytes.bind demoGunzip = some [104, 105] ∧
    ∃ (r2 : Request String) (plain : Bytes),
      SetBody demoPlatform demoRequest (.str "hi") false = .ok r2 ∧
      r2.bodyBytes = some plain ∧
      demoGzippedString.bodyBytes.bind demoGunzip = some plain ∧
      (∀ b, (Body.str "hi" : Body (Option String)) = .str b → plain = utf8 b) ∧
      (∀ d, (Body.str "hi" : Body (Option String)) = .val d →
        demoPlatform.jsonMarshal d = .ok plain) :=
  ⟨rfl, by decide,
    SetBody_gzip_roundtrip demoPlatform demoGunzip
      (fun d out _ hc => by
        have e : out = 31 :: 139 :: d := by
          have hc2 : (Except.ok (31 :: 139 :: d) : Except GoError Bytes) = .ok out := hc
          exact (Except.ok.inj hc2).symm
        subst e
        rfl)
      demoRequest demoGzippedString (.str "hi") rfl⟩


/-- C5 at a concrete input: `demoCall`, whose extra headers also name
`x-apikeys`. -/
theorem PerformRequest_apiKeys_witness :
    NewRequest demoPlatform demoCall.Method (requestURL demoPlatform demoClient demoCall) =
      .ok (demoFresh "POST" "https://nessus.local:8834/scans?limit=5") ∧
    ∃ rp, prepareRequest demoPlatform demoClient demoCall = .ok rp ∧
      Header.Get rp.Header "X-ApiKeys" =
        "accessKey=" ++ demoClient.accessKey ++ "; secretKey=" ++ demoClient.secretKey ∧
      ∀ req, buildRequest demoPlatform demoClient demoCall = .ok req →
        Header.Get req.Header "X-ApiKeys" =
          "accessKey=" ++ demoClient.accessKey ++ "; secretKey=" ++ demoClient.secretKey ∧
        Header.Values req.Header "X-ApiKeys" =
          ("accessKey=" ++ demoClient.accessKey ++ "; secretKey=" ++ demoClient.secretKey) ::
            Header.extraValues demoCall.Headers "X-Apikeys" ∧
        dispatched (PerformRequest demoPlatform demoClient demoCall).2 = [req] :=
  ⟨rfl,
    PerformRequest_apiKeys demoPlatform demoClient demoCall
      (demoFresh "POST" "https://nessus.local:8834/scans?limit=5") rfl⟩

/-- C6 at a concrete input: the extra `content-type` value of `demoCall` is
appended to the override. -/
theorem PerformRequest_merge_additive_witness :
    authRequest demoPlatform demoClient demoCall = .ok demoAuth ∧
    Header.Values demoAuth.Header "Content-Type" = ["text/plain"] ∧
    Header.extraValues demoCall.Headers "Content-Type" = ["text/csv"] ∧
    ∃ r1, prepareRequest demoPlatform demoClient demoCall = .ok r1 ∧
      Header.Values r1.Header "Content-Type" =
        Header.Values demoAuth.Header "Content-Type" ++
          Header.extraValues demoCall.Headers (CanonicalMIMEHeaderKey "Content-Type") :=
  ⟨rfl, by decide, by decide,
    match PerformRequest_merge_additive demoPlatform demoClient demoCall demoAuth rfl with
    | ⟨r1, hp, hv, _⟩ => ⟨r1, hp, hv "Content-Type"⟩⟩

/-- C7 at a concrete input: the body of `demoBadCall` cannot be serialized. -/
theorem PerformRequest_body_error_witness :
    prepareRequest demoPlatform demoClient demoBadCall = .ok demoBadPrepared ∧
    demoBadCall.Body = some (.val none) ∧
    SetBody demoPlatform demoBadPrepared (.val none) false =
      .error ⟨"json: unsupported type"⟩ ∧
    PerformRequest demoPlatform demoClient demoBadCall =
      (.error ⟨"json: unsupported type"⟩, []) ∧
    dispatched (PerformRequest demoPlatform demoClient demoBadCall).2 = [] :=
  ⟨rfl, rfl, rfl,
    (PerformRequest_body_error demoPlatform demoClient demoBadCall demoBadPrepared (.val none)
      rfl rfl).1 ⟨"json: unsupported type"⟩ rfl⟩

/-- C8 at a concrete input: the transport answers `demoStringCall` with stream
8, decoding fails, and the stream is closed once. -/
theorem PerformRequest_closes_stream_witness :
    buildRequest demoPlatform demoClient demoStringCall = .ok demoStringBuilt ∧
    demoClient.Do demoStringBuilt = .ok { StatusCode := 500, Header := [], Body := some 8 } ∧
    (PerformRequest demoPlatform demoClient demoStringCall).1 =
      demoPlatform.newResponse { StatusCode := 500, Header := [], Body := some 8 } 0 ∧
    (PerformRequest demoPlatform demoClient demoStringCall).2 =
      [.dispatch demoStringBuilt, .close 8] ∧
    closedStreams (PerformRequest demoPlatform demoClient demoStringCall).2 = [8] :=
  ⟨rfl, rfl,
    (PerformRequest_closes_stream demoPlatform demoClient demoStringCall).1 demoStringBuilt
      { StatusCode := 500, Header := [], Body := some 8 } 8 rfl rfl rfl⟩

/-- C9, as amended, at a concrete input: `demoPlatform` and `demoClient`. -/
theorem PerformRequest_scans_witness :
    demoPlatform.httpNewRequest "GET" (demoClient.serverURL ++ "/scans") =
      .ok ("GET", "https://nessus.local:8834/scans") ∧
    requestURL demoPlatform demoClient (scansCall : PerformRequestOptions (Option String)) =
      demoClient.serverURL ++ "/scans" ∧
    dispatched (PerformRequest demoPlatform demoClient
        (scansCall : PerformRequestOptions (Option String))).2 =
      [{ Method := "GET", URL := "https://nessus.local:8834/scans",
         Header :=
           [("User-Agent",
              ["Nessus/" ++ Version ++ " (" ++ demoPlatform.GOOS ++ "-" ++ demoPlatform.GOARCH ++ ")"]),
            ("Accept", ["application/json"]),
            ("Content-Type", ["application/json"]),
            ("X-Apikeys",
              ["accessKey=" ++ demoClient.accessKey ++ "; secretKey=" ++ demoClient.secretKey])],
         Body := none, ContentLength := 0, GetBody := none }] :=
  ⟨rfl,
    PerformRequest_scans demoPlatform demoClient "GET" "https://nessus.local:8834/scans" rfl⟩

/-- C9, as stated, fails: for `GET /scans` the header map of the request
handed to the transport has four entries, the three default headers of
`NewRequest` and `X-ApiKeys`, not four default headers and `X-ApiKeys`. -/
theorem PerformRequest_scans_four_defaults_counterexample :
    (dispatched (PerformRequest demoPlatform demoClient
        (scansCall : PerformRequestOptions (Option String))).2).map
        (fun r => r.Header.map Prod.fst) =
      [["User-Agent", "Accept", "Content-Type", "X-Apikeys"]] ∧
    ¬ ((dispatched (PerformRequest demoPlatform demoClient
        (scansCall : PerformRequestOptions (Option String))).2).map
        (fun r => r.Header.length) = [4 + 1]) := by
  constructor
  · decide
  · decide

/-- C10 at concrete inputs: the structured body of `demoCall` and the string
body of `demoStringCall`. -/
theorem PerformRequest_contentType_witness :
    buildRequest demoPlatform demoClient demoCall = .ok demoBuilt ∧
    demoCall.ContentType = "text/plain" ∧
    Header.extraValues demoCall.Headers "Content-Type" = ["text/csv"] ∧
    Header.Values demoBuilt.Header "Content-Type" = ["application/json"] ∧
    buildRequest demoPlatform demoClient demoStringCall = .ok demoStringBuilt ∧
    Header.Get demoStringBuilt.Header "Content-Type" = demoStringCall.ContentType :=
  ⟨rfl, rfl, by decide,
    (PerformRequest_contentType demoPlatform demoClient demoCall demoBuilt rfl).2.1
      (some "[1,2]") rfl,
    rfl,
    ((PerformRequest_contentType demoPlatform demoClient demoStringCall demoStringBuilt
      rfl).2.2 (by decide) (Or.inr ⟨"hi", rfl⟩)).1⟩

end Gonessus
